import Mathlib

/- Shallow embedding of the learning-rate scheduler core and the CUDA RNG
seeding utilities of this repository.  The scheduler implementations
themselves are not part of the source excerpt (only their tests and the
legacy reference implementations inside `test/test_optim.py` are), so the
scheduler operations below are modelled from the specification, with the
in-source legacy classes (`LegacyStepLR`, `LegacyMultiStepLR`,
`LegacyExponentialLR`, `LegacyCosineAnnealingLR`) and the expected-value
tables of `test/test_optim.py` used as anchors.  `torch/cuda/random.py` is
in the source and is embedded directly.

Numbers: learning rates, metrics and hyperparameters are exact rationals
(`ℚ`); the cosine-shaped learning rates live in `ℝ` via `Real.cos`.
Epoch counters are naturals; the warm-restart scheduler additionally
accepts fractional (`ℚ`) epochs as the code does. -/

/- A parameter-group store: the optimizer's per-group learning rates,
index-aligned with the scheduler's `base_lrs` list. -/
abbrev LrGroups := List ℚ

/- ### CUDA RNG (from src/torch/cuda/random.py) -/

/-- Modelled from src/torch/cuda/random.py: a per-device default CUDA
generator, reduced to the seed it currently holds.  `manual_seed` stores a
given seed, `seedGen` models `Generator.seed()` drawing a fresh random
seed (supplied as the explicit entropy argument `fresh`), `initial_seed`
reads the stored seed back. -/
structure CudaGenerator where
  seedVal : ℕ
deriving DecidableEq

def CudaGenerator.manual_seed (_g : CudaGenerator) (s : ℕ) : CudaGenerator :=
  ⟨s⟩

def CudaGenerator.seedGen (_g : CudaGenerator) (fresh : ℕ) : CudaGenerator :=
  ⟨fresh⟩

def CudaGenerator.initial_seed (g : CudaGenerator) : ℕ :=
  g.seedVal

/-- The loop body of the deferred callback queued by `seed_all`
(src/torch/cuda/random.py lines 139-151): iterate over the devices in
ascending index order carrying the `random_seed`/`seeded` pair; the first
device is seeded with a fresh random seed and its `initial_seed()` is read
back, every later device is manually seeded with that value. -/
def seed_all_loop (fresh : ℕ) : List CudaGenerator → ℕ → Bool → List CudaGenerator
  | [], _, _ => []
  | g :: gs, random_seed, seeded =>
    if seeded then
      g.manual_seed random_seed :: seed_all_loop fresh gs random_seed seeded
    else
      let g' := g.seedGen fresh
      g' :: seed_all_loop fresh gs g'.initial_seed true

/-- The callback of `seed_all` (src/torch/cuda/random.py lines 139-151),
applied to the table of per-device generators; `random_seed` starts at `0`
and `seeded` at `false`. -/
def seed_all (fresh : ℕ) (gens : List CudaGenerator) : List CudaGenerator :=
  seed_all_loop fresh gens 0 false

/- ### Closed-form schedulers -/

/-- Modelled from the spec (section 4.2) and from `LegacyStepLR.get_lr` in
src/test/test_optim.py lines 493-496: the Step scheduler's state.  The
`optimizer` field is an opaque reference (an identifier), never
serialized. -/
structure StepLR where
  optimizer : ℕ
  step_size : ℕ
  gamma : ℚ
  base_lrs : List ℚ
  last_epoch : ℕ

/-- `base_lr * gamma ^ (last_epoch // step_size)` for every group, from
`LegacyStepLR.get_lr` (src/test/test_optim.py lines 494-496). -/
def StepLR.get_lr (s : StepLR) (epoch : ℕ) : LrGroups :=
  s.base_lrs.map fun base_lr => base_lr * s.gamma ^ (epoch / s.step_size)

/-- Modelled from the spec (section 4.1): stepping with an explicit epoch
sets the counter to that value and writes one learning rate per group into
the parameter-group store. -/
def StepLR.step (s : StepLR) (epoch : ℕ) : StepLR × LrGroups :=
  ({ s with last_epoch := epoch }, s.get_lr epoch)

/-- Modelled from the spec (section 4.2) and `LegacyMultiStepLR.get_lr`
(src/test/test_optim.py lines 505-507): the MultiStep scheduler. -/
structure MultiStepLR where
  optimizer : ℕ
  milestones : List ℕ
  gamma : ℚ
  base_lrs : List ℚ
  last_epoch : ℕ

/-- `base_lr * gamma ^ bisect_right(milestones, last_epoch)`: the exponent
is the count of milestones `≤ last_epoch`, duplicates counted with
multiplicity. -/
def MultiStepLR.get_lr (s : MultiStepLR) (epoch : ℕ) : LrGroups :=
  s.base_lrs.map fun base_lr =>
    base_lr * s.gamma ^ (s.milestones.filter (fun m => m ≤ epoch)).length

def MultiStepLR.step (s : MultiStepLR) (epoch : ℕ) : MultiStepLR × LrGroups :=
  ({ s with last_epoch := epoch }, s.get_lr epoch)

/-- Modelled from the spec (section 4.2) and `LegacyExponentialLR.get_lr`
(src/test/test_optim.py lines 511-513): the Exponential scheduler. -/
structure ExponentialLR where
  optimizer : ℕ
  gamma : ℚ
  base_lrs : List ℚ
  last_epoch : ℕ

def ExponentialLR.get_lr (s : ExponentialLR) (epoch : ℕ) : LrGroups :=
  s.base_lrs.map fun base_lr => base_lr * s.gamma ^ epoch

def ExponentialLR.step (s : ExponentialLR) (epoch : ℕ) : ExponentialLR × LrGroups :=
  ({ s with last_epoch := epoch }, s.get_lr epoch)

/-- Modelled from the spec (section 4.2) and `LegacyCosineAnnealingLR.get_lr`
(src/test/test_optim.py lines 517-520): the CosineAnnealing scheduler. -/
structure CosineAnnealingLR where
  optimizer : ℕ
  T_max : ℕ
  eta_min : ℚ
  base_lrs : List ℚ
  last_epoch : ℕ

/-- `eta_min + (base_lr - eta_min) * (1 + cos(pi * last_epoch / T_max)) / 2`. -/
noncomputable def CosineAnnealingLR.get_lr (s : CosineAnnealingLR) (epoch : ℕ) : List ℝ :=
  s.base_lrs.map fun base_lr =>
    (s.eta_min : ℝ) + ((base_lr : ℝ) - (s.eta_min : ℝ)) *
      (1 + Real.cos (Real.pi * epoch / s.T_max)) / 2

noncomputable def CosineAnnealingLR.step (s : CosineAnnealingLR) (epoch : ℕ) :
    CosineAnnealingLR × List ℝ :=
  ({ s with last_epoch := epoch }, s.get_lr epoch)

/-- Modelled from the spec (section 4.2): the Lambda scheduler with one
user-supplied multiplier function per group. -/
structure LambdaLR where
  optimizer : ℕ
  lr_lambdas : List (ℕ → ℚ)
  base_lrs : List ℚ
  last_epoch : ℕ

/-- `base_lr * f(last_epoch)` per group. -/
def LambdaLR.get_lr (s : LambdaLR) (epoch : ℕ) : LrGroups :=
  (s.base_lrs.zip s.lr_lambdas).map fun p => p.1 * p.2 epoch

def LambdaLR.step (s : LambdaLR) (epoch : ℕ) : LambdaLR × LrGroups :=
  ({ s with last_epoch := epoch }, s.get_lr epoch)

/- ### Warm-restart scheduler (CosineAnnealingWarmRestarts) -/

/-- Fuel-driven floor logarithm: `floorLogAux b fuel q` computes the
largest `n` with `b ^ n ≤ q` (for `2 ≤ b`, `1 ≤ q ≤ fuel`), the exact
value of `int(math.log(q, b))` on exact inputs. -/
def floorLogAux (b : ℕ) : ℕ → ℕ → ℕ
  | 0, _ => 0
  | fuel + 1, q => if b ≤ q then floorLogAux b fuel (q / b) + 1 else 0

/-- `floorLog b q` is the floor of the base-`b` logarithm of `q`. -/
def floorLog (b q : ℕ) : ℕ :=
  floorLogAux b q q

/-- Modelled from the spec (section 4.3): stepping the warm-restart
scheduler with an explicit epoch `e ≥ 0` recomputes the cycle position
`T_cur` and cycle length `T_i`.  For `e < T_0` the scheduler is still in
the first cycle; with `T_mult = 1` the cycles are uniform and
`T_cur = e mod T_0`; with `T_mult > 1` the elapsed full cycles are
recovered in closed form from the floor of the base-`T_mult` logarithm of
`(e / T_0) * (T_mult - 1) + 1`. -/
def warmRestartPair (T_0 T_mult : ℕ) (e : ℚ) : ℚ × ℚ :=
  if e < (T_0 : ℚ) then
    (e, (T_0 : ℚ))
  else if T_mult = 1 then
    (e - (T_0 : ℚ) * (⌊e / (T_0 : ℚ)⌋ : ℤ), (T_0 : ℚ))
  else
    let n : ℕ := floorLog T_mult (⌊e / (T_0 : ℚ) * ((T_mult : ℚ) - 1) + 1⌋).toNat
    (e - (T_0 : ℚ) * ((T_mult : ℚ) ^ n - 1) / ((T_mult : ℚ) - 1),
      (T_0 : ℚ) * (T_mult : ℚ) ^ n)

/-- The same closed form restricted to integer epochs, in exact natural
arithmetic (the bridge lemma `warmRestartPair_natCast` proves it agrees
with `warmRestartPair`). -/
def warmRestartPairNat (T_0 T_mult e : ℕ) : ℕ × ℕ :=
  if e < T_0 then
    (e, T_0)
  else if T_mult = 1 then
    (e % T_0, T_0)
  else
    let n : ℕ := floorLog T_mult (e * (T_mult - 1) / T_0 + 1)
    (e - T_0 * ((T_mult ^ n - 1) / (T_mult - 1)), T_0 * T_mult ^ n)

/-- The iterative simulation of the warm-restart recurrence from
`TestLRScheduler.test_CosineAnnealingWarmRestarts_lr1`
(src/test/test_optim.py lines 1016-1024): start with `T_cur = 0`,
`T_i = T_0 = 10`; each step increments `T_cur` and, on `T_cur >= T_i`,
subtracts `T_i` from `T_cur` and multiplies `T_i` by `T_mult`. -/
def warmIterPair (T_mult : ℕ) : ℕ → ℕ × ℕ
  | 0 => (0, 10)
  | e + 1 =>
    let p := warmIterPair T_mult e
    let T_cur := p.1 + 1
    if p.2 ≤ T_cur then (T_cur - p.2, T_mult * p.2) else (T_cur, p.2)

/-- The cosine learning-rate formula shared by the closed-form computation
and the iterative simulation:
`eta_min + (base_lr - eta_min) * (1 + cos(pi * T_cur / T_i)) / 2`. -/
noncomputable def warmLR (eta_min base_lr : ℝ) (p : ℚ × ℚ) : ℝ :=
  eta_min + (base_lr - eta_min) * (1 + Real.cos (Real.pi * (p.1 : ℝ) / (p.2 : ℝ))) / 2

/-- Modelled from the spec (sections 4.3 and 7): a step-time error of the
warm-restart scheduler. -/
inductive WarmRestartError where
  | negativeEpoch (e : ℚ)
deriving DecidableEq

/-- Modelled from the spec (section 4.3): the warm-restart scheduler's
state.  `optimizer` is an opaque reference, never serialized. -/
structure CosineAnnealingWarmRestarts where
  optimizer : ℕ
  T_0 : ℕ
  T_mult : ℕ
  eta_min : ℚ
  base_lrs : List ℚ
  T_cur : ℚ
  T_i : ℚ
  last_epoch : ℤ

/-- The bookkeeping update of a step with an explicit epoch `e ≥ 0`:
recompute `(T_cur, T_i)` in closed form and floor the epoch counter. -/
def CosineAnnealingWarmRestarts.update_epoch (s : CosineAnnealingWarmRestarts) (e : ℚ) :
    CosineAnnealingWarmRestarts :=
  let p := warmRestartPair s.T_0 s.T_mult e
  { s with T_cur := p.1, T_i := p.2, last_epoch := ⌊e⌋ }

/-- Modelled from the spec (sections 4.3 and 7): stepping with an explicit
epoch validates `e ≥ 0` before any state is touched and fails with a
`ValueError` on a negative epoch; validation precedes mutation, so an
erroring step leaves the scheduler state and the parameter groups
unchanged (no new state is produced). -/
def CosineAnnealingWarmRestarts.step_epoch (s : CosineAnnealingWarmRestarts) (e : ℚ) :
    Except WarmRestartError CosineAnnealingWarmRestarts :=
  if e < 0 then .error (.negativeEpoch e) else .ok (s.update_epoch e)

/-- Modelled from the spec (section 4.3): stepping with no explicit epoch
increments `T_cur` by one and, when `T_cur ≥ T_i`, restarts: `T_cur`
drops by `T_i` and `T_i` is multiplied by `T_mult`. -/
def CosineAnnealingWarmRestarts.step_none (s : CosineAnnealingWarmRestarts) :
    CosineAnnealingWarmRestarts :=
  let T_cur := s.T_cur + 1
  if s.T_i ≤ T_cur then
    { s with T_cur := T_cur - s.T_i, T_i := s.T_i * (s.T_mult : ℚ),
             last_epoch := s.last_epoch + 1 }
  else
    { s with T_cur := T_cur, last_epoch := s.last_epoch + 1 }

/-- The learning rates the warm-restart scheduler writes into the groups,
one per group, from the current `(T_cur, T_i)` pair. -/
noncomputable def CosineAnnealingWarmRestarts.lrs (s : CosineAnnealingWarmRestarts) :
    List ℝ :=
  s.base_lrs.map fun base_lr => warmLR (s.eta_min : ℝ) (base_lr : ℝ) (s.T_cur, s.T_i)

/- ### Plateau scheduler (ReduceLROnPlateau) -/

/-- Modelled from the spec (section 4.4): the metric direction. -/
inductive PlateauMode where
  | min
  | max
deriving DecidableEq

/-- Modelled from the spec (section 4.4): the threshold interpretation. -/
inductive ThresholdMode where
  | rel
  | abs
deriving DecidableEq

/-- Modelled from the spec (sections 3 and 4.4): the plateau scheduler's
full state: configuration, best-metric tracking and the two counters.
`best` is `none` until the first metric arrives (the code initializes it
to the worst possible value, against which any metric is better). -/
structure ReduceLROnPlateau where
  optimizer : ℕ
  mode : PlateauMode
  threshold_mode : ThresholdMode
  threshold : ℚ
  patience : ℕ
  cooldown : ℕ
  factor : ℚ
  min_lrs : List ℚ
  eps : ℚ
  best : Option ℚ
  num_bad_epochs : ℕ
  cooldown_counter : ℕ

/-- Modelled from the spec (section 4.4), the comparison rule
`is_better(current, best)` in its four mode/threshold-mode combinations;
any metric beats an unset `best`. -/
def plateauIsBetter (mode : PlateauMode) (threshold_mode : ThresholdMode)
    (threshold : ℚ) (best : Option ℚ) (current : ℚ) : Bool :=
  match best with
  | none => true
  | some best =>
    match mode, threshold_mode with
    | .min, .rel => decide (current < best * (1 - threshold))
    | .min, .abs => decide (current < best - threshold)
    | .max, .rel => decide (current > best * (1 + threshold))
    | .max, .abs => decide (current > best + threshold)

def ReduceLROnPlateau.is_better (s : ReduceLROnPlateau) (current : ℚ) : Bool :=
  plateauIsBetter s.mode s.threshold_mode s.threshold s.best current

/-- Modelled from the spec (section 4.4): reduce every group's learning
rate by `factor`, floored at the group's `min_lr`; the write is skipped
when the change does not exceed the fixed epsilon. -/
def plateauReduce (factor eps : ℚ) (min_lrs : List ℚ) (gs : LrGroups) : LrGroups :=
  (gs.zip min_lrs).map fun p =>
    let new_lr := max (p.1 * factor) p.2
    if eps < p.1 - new_lr then new_lr else p.1

def ReduceLROnPlateau.reduce_lrs (s : ReduceLROnPlateau) (gs : LrGroups) : LrGroups :=
  plateauReduce s.factor s.eps s.min_lrs gs

/-- Modelled from the spec (section 4.4): one step on a metric value.  If
in cooldown, decrement the counter, reset `num_bad_epochs`, skip
reduction.  Else if the metric is better than `best`, record it and reset
`num_bad_epochs`.  Else count a bad epoch and, past `patience`, reduce
all groups, enter cooldown and reset `num_bad_epochs`. -/
def ReduceLROnPlateau.step (s : ReduceLROnPlateau) (gs : LrGroups) (metric : ℚ) :
    ReduceLROnPlateau × LrGroups :=
  if 0 < s.cooldown_counter then
    ({ s with cooldown_counter := s.cooldown_counter - 1, num_bad_epochs := 0 }, gs)
  else if s.is_better metric then
    ({ s with best := some metric, num_bad_epochs := 0 }, gs)
  else if s.patience < s.num_bad_epochs + 1 then
    ({ s with num_bad_epochs := 0, cooldown_counter := s.cooldown }, s.reduce_lrs gs)
  else
    ({ s with num_bad_epochs := s.num_bad_epochs + 1 }, gs)

/- ### Cyclic scheduler (CyclicLR) -/

/-- Modelled from the spec (section 4.5): the waveform mode, a closed set
of three recognized variants. -/
inductive CyclicMode where
  | triangular
  | triangular2
  | exp_range
deriving DecidableEq

/-- Modelled from the spec (section 4.5): the cyclic scheduler's state. -/
structure CyclicLR where
  optimizer : ℕ
  base_lrs : List ℚ
  max_lrs : List ℚ
  base_momentums : List ℚ
  max_momentums : List ℚ
  step_size_up : ℕ
  step_size_down : ℕ
  mode : CyclicMode
  gamma : ℚ
  cycle_momentum : Bool
  last_epoch : ℕ

/-- `cycle = floor(1 + step / (step_size_up + step_size_down))`. -/
def CyclicLR.cycleAt (s : CyclicLR) (step : ℕ) : ℕ :=
  1 + step / (s.step_size_up + s.step_size_down)

/-- The normalized position within the current cycle, compared against the
up/down boundary `step_size_up / total` to yield the triangular height
`max(0, 1 - |x|)` of the spec: rising from 0 to 1 over the up phase, then
falling back to 0 over the down phase. -/
def CyclicLR.scale_factor (s : CyclicLR) (step : ℕ) : ℚ :=
  let total : ℕ := s.step_size_up + s.step_size_down
  let x : ℚ := ((step % total : ℕ) : ℚ) / (total : ℚ)
  let ratio : ℚ := (s.step_size_up : ℚ) / (total : ℚ)
  if x ≤ ratio then x / ratio else (x - 1) / (ratio - 1)

/-- Modelled from the spec (section 4.5): the per-mode scaling, applied on
top of the triangular height: `triangular → 1`,
`triangular2 → 1 / 2^(cycle-1)`, `exp_range → gamma^step`. -/
def CyclicLR.scaleAt (s : CyclicLR) (step : ℕ) : ℚ :=
  match s.mode with
  | .triangular => 1
  | .triangular2 => 1 / 2 ^ (s.cycleAt step - 1)
  | .exp_range => s.gamma ^ step

/-- `base_lr + (max_lr - base_lr) * height * scale` per group. -/
def CyclicLR.lrsAt (s : CyclicLR) (step : ℕ) : LrGroups :=
  (s.base_lrs.zip s.max_lrs).map fun p =>
    p.1 + (p.2 - p.1) * s.scale_factor step * s.scaleAt step

/-- The inverse waveform
`max_momentum - (max_momentum - base_momentum) * height * scale` per
group, written only when `cycle_momentum` is enabled. -/
def CyclicLR.momentumsAt (s : CyclicLR) (step : ℕ) : List ℚ :=
  (s.base_momentums.zip s.max_momentums).map fun p =>
    p.2 - (p.2 - p.1) * s.scale_factor step * s.scaleAt step

/-- Modelled from the spec (section 4.5): one step at an explicit step
count writes the learning rates and, when `cycle_momentum` is enabled,
the momenta. -/
def CyclicLR.step (s : CyclicLR) (step : ℕ) :
    CyclicLR × LrGroups × Option (List ℚ) :=
  ({ s with last_epoch := step }, s.lrsAt step,
    if s.cycle_momentum then some (s.momentumsAt step) else none)

/- ### Construction-time validation -/

/-- Modelled from the spec (section 7): the construction-time error
taxonomy (`ConfigurationError`).  `invalidParams` stands for the failure
the external parameter collection raises when it is finally read. -/
inductive ConfigError where
  | invalidLr (v : ℚ)
  | invalidMomentum (v : ℚ)
  | invalidWeightDecay (v : ℚ)
  | invalidMode (m : String)
  | invalidParams
deriving DecidableEq

/-- Modelled from the spec (section 7) and `TestOptim.test_sgd`
(src/test/test_optim.py lines 276-277): SGD construction validates `lr`,
`momentum` and `weight_decay` in this order, each before the parameter
collection is ever examined; an out-of-range value aborts construction
with a `ConfigurationError` and nothing is built or mutated.  The
parameter collection is `Option`-valued: a failing validation returns the
error even when no parameters exist at all (the test passes `None`). -/
def sgdInit (params : Option (List ℚ)) (lr momentum weight_decay : ℚ) :
    Except ConfigError (List (ℚ × ℚ)) :=
  if lr < 0 then .error (.invalidLr lr)
  else if momentum < 0 then .error (.invalidMomentum momentum)
  else if weight_decay < 0 then .error (.invalidWeightDecay weight_decay)
  else
    match params with
    | none => .error .invalidParams
    | some ps => .ok (ps.map fun _p => (lr, momentum))

/-- Modelled from the spec (section 4.5): CyclicLR construction recognizes
exactly the three mode strings and fails with a `ConfigurationError` on
any other mode before touching the groups. -/
def cyclicParseMode (mode : String) : Except ConfigError CyclicMode :=
  if mode = "triangular" then .ok .triangular
  else if mode = "triangular2" then .ok .triangular2
  else if mode = "exp_range" then .ok .exp_range
  else .error (.invalidMode mode)

/- ### Serialization (state_dict / load_state_dict), spec section 4.1 -/

/-- Modelled from the spec (section 4.1): `state_dict()` returns every
field of the Step scheduler except the optimizer reference. -/
structure StepLRDict where
  step_size : ℕ
  gamma : ℚ
  base_lrs : List ℚ
  last_epoch : ℕ

def StepLR.state_dict (s : StepLR) : StepLRDict :=
  ⟨s.step_size, s.gamma, s.base_lrs, s.last_epoch⟩

def StepLR.load_state_dict (s : StepLR) (d : StepLRDict) : StepLR :=
  { s with step_size := d.step_size, gamma := d.gamma,
           base_lrs := d.base_lrs, last_epoch := d.last_epoch }

/-- The learning rates produced by a sequence of explicit-epoch step
calls, threading the scheduler state through. -/
def StepLR.run (s : StepLR) : List ℕ → List LrGroups
  | [] => []
  | e :: es => (s.step e).2 :: (s.step e).1.run es

structure MultiStepLRDict where
  milestones : List ℕ
  gamma : ℚ
  base_lrs : List ℚ
  last_epoch : ℕ

def MultiStepLR.state_dict (s : MultiStepLR) : MultiStepLRDict :=
  ⟨s.milestones, s.gamma, s.base_lrs, s.last_epoch⟩

def MultiStepLR.load_state_dict (s : MultiStepLR) (d : MultiStepLRDict) : MultiStepLR :=
  { s with milestones := d.milestones, gamma := d.gamma,
           base_lrs := d.base_lrs, last_epoch := d.last_epoch }

def MultiStepLR.run (s : MultiStepLR) : List ℕ → List LrGroups
  | [] => []
  | e :: es => (s.step e).2 :: (s.step e).1.run es

structure ExponentialLRDict where
  gamma : ℚ
  base_lrs : List ℚ
  last_epoch : ℕ

def ExponentialLR.state_dict (s : ExponentialLR) : ExponentialLRDict :=
  ⟨s.gamma, s.base_lrs, s.last_epoch⟩

def ExponentialLR.load_state_dict (s : ExponentialLR) (d : ExponentialLRDict) :
    ExponentialLR :=
  { s with gamma := d.gamma, base_lrs := d.base_lrs, last_epoch := d.last_epoch }

def ExponentialLR.run (s : ExponentialLR) : List ℕ → List LrGroups
  | [] => []
  | e :: es => (s.step e).2 :: (s.step e).1.run es

structure CosineAnnealingLRDict where
  T_max : ℕ
  eta_min : ℚ
  base_lrs : List ℚ
  last_epoch : ℕ

def CosineAnnealingLR.state_dict (s : CosineAnnealingLR) : CosineAnnealingLRDict :=
  ⟨s.T_max, s.eta_min, s.base_lrs, s.last_epoch⟩

def CosineAnnealingLR.load_state_dict (s : CosineAnnealingLR)
    (d : CosineAnnealingLRDict) : CosineAnnealingLR :=
  { s with T_max := d.T_max, eta_min := d.eta_min,
           base_lrs := d.base_lrs, last_epoch := d.last_epoch }

noncomputable def CosineAnnealingLR.run (s : CosineAnnealingLR) :
    List ℕ → List (List ℝ)
  | [] => []
  | e :: es => (s.step e).2 :: (s.step e).1.run es

/-- Modelled from the spec (sections 4.2 and 6): the Lambda scheduler's
state dict records the function objects as absent (null placeholders, one
slot per group) because plain functions are not serializable. -/
structure LambdaLRDict where
  lr_lambdas : List (Option (ℕ → ℚ))
  base_lrs : List ℚ
  last_epoch : ℕ

def LambdaLR.state_dict (s : LambdaLR) : LambdaLRDict :=
  ⟨s.lr_lambdas.map fun _f => none, s.base_lrs, s.last_epoch⟩

/-- `load_state_dict` restores every serialized field; a `none` placeholder
leaves the scheduler's own function in place. -/
def LambdaLR.load_state_dict (s : LambdaLR) (d : LambdaLRDict) : LambdaLR :=
  { s with base_lrs := d.base_lrs, last_epoch := d.last_epoch,
           lr_lambdas := (s.lr_lambdas.zip d.lr_lambdas).map fun p => p.2.getD p.1 }

def LambdaLR.run (s : LambdaLR) : List ℕ → List LrGroups
  | [] => []
  | e :: es => (s.step e).2 :: (s.step e).1.run es

structure CyclicLRDict where
  base_lrs : List ℚ
  max_lrs : List ℚ
  base_momentums : List ℚ
  max_momentums : List ℚ
  step_size_up : ℕ
  step_size_down : ℕ
  mode : CyclicMode
  gamma : ℚ
  cycle_momentum : Bool
  last_epoch : ℕ

def CyclicLR.state_dict (s : CyclicLR) : CyclicLRDict :=
  ⟨s.base_lrs, s.max_lrs, s.base_momentums, s.max_momentums, s.step_size_up,
    s.step_size_down, s.mode, s.gamma, s.cycle_momentum, s.last_epoch⟩

def CyclicLR.load_state_dict (s : CyclicLR) (d : CyclicLRDict) : CyclicLR :=
  { s with base_lrs := d.base_lrs, max_lrs := d.max_lrs,
           base_momentums := d.base_momentums, max_momentums := d.max_momentums,
           step_size_up := d.step_size_up, step_size_down := d.step_size_down,
           mode := d.mode, gamma := d.gamma, cycle_momentum := d.cycle_momentum,
           last_epoch := d.last_epoch }

def CyclicLR.run (s : CyclicLR) : List ℕ → List (LrGroups × Option (List ℚ))
  | [] => []
  | e :: es => (s.step e).2 :: (s.step e).1.run es

structure CosineAnnealingWarmRestartsDict where
  T_0 : ℕ
  T_mult : ℕ
  eta_min : ℚ
  base_lrs : List ℚ
  T_cur : ℚ
  T_i : ℚ
  last_epoch : ℤ

def CosineAnnealingWarmRestarts.state_dict (s : CosineAnnealingWarmRestarts) :
    CosineAnnealingWarmRestartsDict :=
  ⟨s.T_0, s.T_mult, s.eta_min, s.base_lrs, s.T_cur, s.T_i, s.last_epoch⟩

def CosineAnnealingWarmRestarts.load_state_dict (s : CosineAnnealingWarmRestarts)
    (d : CosineAnnealingWarmRestartsDict) : CosineAnnealingWarmRestarts :=
  { s with T_0 := d.T_0, T_mult := d.T_mult, eta_min := d.eta_min,
           base_lrs := d.base_lrs, T_cur := d.T_cur, T_i := d.T_i,
           last_epoch := d.last_epoch }

/-- The learning-rate trace of `n` implicit (compare `step()`) warm-restart
steps. -/
noncomputable def CosineAnnealingWarmRestarts.run (s : CosineAnnealingWarmRestarts) :
    ℕ → List (List ℝ)
  | 0 => []
  | n + 1 => s.step_none.lrs :: s.step_none.run n

structure ReduceLROnPlateauDict where
  mode : PlateauMode
  threshold_mode : ThresholdMode
  threshold : ℚ
  patience : ℕ
  cooldown : ℕ
  factor : ℚ
  min_lrs : List ℚ
  eps : ℚ
  best : Option ℚ
  num_bad_epochs : ℕ
  cooldown_counter : ℕ

def ReduceLROnPlateau.state_dict (s : ReduceLROnPlateau) : ReduceLROnPlateauDict :=
  ⟨s.mode, s.threshold_mode, s.threshold, s.patience, s.cooldown, s.factor,
    s.min_lrs, s.eps, s.best, s.num_bad_epochs, s.cooldown_counter⟩

def ReduceLROnPlateau.load_state_dict (s : ReduceLROnPlateau)
    (d : ReduceLROnPlateauDict) : ReduceLROnPlateau :=
  { s with mode := d.mode, threshold_mode := d.threshold_mode,
           threshold := d.threshold, patience := d.patience,
           cooldown := d.cooldown, factor := d.factor, min_lrs := d.min_lrs,
           eps := d.eps, best := d.best, num_bad_epochs := d.num_bad_epochs,
           cooldown_counter := d.cooldown_counter }

/-- The group trace of a sequence of plateau steps on a metric stream. -/
def ReduceLROnPlateau.run (s : ReduceLROnPlateau) (gs : LrGroups) :
    List ℚ → List LrGroups
  | [] => []
  | m :: ms => (s.step gs m).2 :: (s.step gs m).1.run (s.step gs m).2 ms

/- ### Helper lemmas -/

theorem floorLogAux_pow_le (b : ℕ) (hb : 2 ≤ b) :
    ∀ fuel q, 1 ≤ q → q ≤ fuel → b ^ floorLogAux b fuel q ≤ q := by
  intro fuel
  induction fuel with
  | zero => intro q hq hle; omega
  | succ fuel ih =>
    intro q hq hle
    rw [floorLogAux]
    by_cases hbq : b ≤ q
    · rw [if_pos hbq]
      have hq0 : 0 < q := hq
      have hdiv1 : 1 ≤ q / b := (Nat.one_le_div_iff (by omega)).mpr hbq
      have hdivlt : q / b < q := Nat.div_lt_self hq0 (by omega)
      have hdivle : q / b ≤ fuel := by omega
      have h := ih (q / b) hdiv1 hdivle
      calc b ^ (floorLogAux b fuel (q / b) + 1)
          = b ^ floorLogAux b fuel (q / b) * b := by rw [pow_succ]
        _ ≤ q / b * b := Nat.mul_le_mul_right b h
        _ ≤ q := Nat.div_mul_le_self q b
    · rw [if_neg hbq]
      simpa using hq

theorem floorLog_pow_le (b q : ℕ) (hb : 2 ≤ b) (hq : 1 ≤ q) :
    b ^ floorLog b q ≤ q :=
  floorLogAux_pow_le b hb q q hq le_rfl

theorem warmRestartPair_natCast (T_0 T_mult e : ℕ) (hT0 : 0 < T_0)
    (hTm : 1 ≤ T_mult) :
    warmRestartPair T_0 T_mult (e : ℚ) =
      (((warmRestartPairNat T_0 T_mult e).1 : ℚ),
        ((warmRestartPairNat T_0 T_mult e).2 : ℚ)) := by
  by_cases h1 : e < T_0
  · have h1' : (e : ℚ) < (T_0 : ℚ) := by exact_mod_cast h1
    rw [warmRestartPair, warmRestartPairNat, if_pos h1', if_pos h1]
  · have h1' : ¬ ((e : ℚ) < (T_0 : ℚ)) := by exact_mod_cast h1
    by_cases h2 : T_mult = 1
    · rw [warmRestartPair, warmRestartPairNat, if_neg h1', if_neg h1, if_pos h2,
        if_pos h2]
      have hfl : ((⌊(e : ℚ) / (T_0 : ℚ)⌋ : ℤ) : ℚ) = ((e / T_0 : ℕ) : ℚ) := by
        rw [Rat.floor_natCast_div_natCast]
        norm_cast
      simp only [Prod.mk.injEq]
      refine ⟨?_, trivial⟩
      rw [hfl]
      have hdm := congrArg (Nat.cast : ℕ → ℚ) (Nat.div_add_mod e T_0)
      push_cast at hdm ⊢
      linarith
    · have hb : 2 ≤ T_mult := by omega
      rw [warmRestartPair, warmRestartPairNat, if_neg h1', if_neg h1, if_neg h2,
        if_neg h2]
      set A : ℕ := e * (T_mult - 1) / T_0 with hAdef
      have harg : (e : ℚ) / (T_0 : ℚ) * ((T_mult : ℚ) - 1) + 1 =
          ((e * (T_mult - 1) : ℕ) : ℚ) / (T_0 : ℚ) + 1 := by
        push_cast [Nat.cast_sub hTm]
        ring
      have hfl2 : ⌊(e : ℚ) / (T_0 : ℚ) * ((T_mult : ℚ) - 1) + 1⌋ =
          ((A + 1 : ℕ) : ℤ) := by
        rw [harg, show ((1 : ℚ)) = ((1 : ℤ) : ℚ) by norm_num, Int.floor_add_int,
          Rat.floor_natCast_div_natCast, hAdef]
        norm_cast
      have htn : (⌊(e : ℚ) / (T_0 : ℚ) * ((T_mult : ℚ) - 1) + 1⌋).toNat = A + 1 := by
        rw [hfl2]; exact Int.toNat_natCast (A + 1)
      simp only [htn]
      set n : ℕ := floorLog T_mult (A + 1) with hndef
      have hpow : T_mult ^ n ≤ A + 1 :=
        floorLog_pow_le T_mult (A + 1) hb (Nat.succ_le_succ (Nat.zero_le A))
      have hdvd : (T_mult - 1) ∣ (T_mult ^ n - 1) := by
        simpa using nat_sub_dvd_pow_sub_pow T_mult 1 n
      have hpow1 : 1 ≤ T_mult ^ n := Nat.one_le_pow n T_mult (by omega)
      have hle : T_0 * ((T_mult ^ n - 1) / (T_mult - 1)) ≤ e := by
        have h3 : T_mult ^ n - 1 ≤ A := Nat.sub_le_iff_le_add.mpr hpow
        rw [hAdef] at h3
        have h4 : (T_mult ^ n - 1) * T_0 ≤ e * (T_mult - 1) :=
          (Nat.le_div_iff_mul_le hT0).mp h3
        have hk : (T_mult ^ n - 1) / (T_mult - 1) * (T_mult - 1) = T_mult ^ n - 1 :=
          Nat.div_mul_cancel hdvd
        have h6 : (T_mult ^ n - 1) / (T_mult - 1) * T_0 * (T_mult - 1) ≤
            e * (T_mult - 1) := by
          calc (T_mult ^ n - 1) / (T_mult - 1) * T_0 * (T_mult - 1)
              = (T_mult ^ n - 1) / (T_mult - 1) * (T_mult - 1) * T_0 := by ring
            _ = (T_mult ^ n - 1) * T_0 := by rw [hk]
            _ ≤ e * (T_mult - 1) := h4
        have h7 : (T_mult ^ n - 1) / (T_mult - 1) * T_0 ≤ e :=
          Nat.le_of_mul_le_mul_right h6 (by omega)
        rw [Nat.mul_comm]
        exact h7
      have hTmQ : (2 : ℚ) ≤ (T_mult : ℚ) := by exact_mod_cast hb
      have hden : ((T_mult - 1 : ℕ) : ℚ) ≠ 0 := by
        rw [Nat.cast_sub hTm]
        push_cast
        intro hx
        linarith
      simp only [Prod.mk.injEq]
      constructor
      · rw [Nat.cast_sub hle, Nat.cast_mul, Nat.cast_div hdvd hden,
          Nat.cast_sub hpow1, Nat.cast_sub hTm]
        push_cast
        ring
      · push_cast
        ring

theorem stepLR_run_ignores_optimizer (o : ℕ) (s : StepLR) (es : List ℕ) :
    ({ s with optimizer := o } : StepLR).run es = s.run es := by
  induction es generalizing s with
  | nil => rfl
  | cons e es ih => exact congrArg₂ List.cons rfl (ih { s with last_epoch := e })

theorem MultistepLR_run_ignores_optimizer (o : ℕ) (s : MultiStepLR) (es : List ℕ) :
    ({ s with optimizer := o } : MultiStepLR).run es = s.run es := by
  induction es generalizing s with
  | nil => rfl
  | cons e es ih => exact congrArg₂ List.cons rfl (ih { s with last_epoch := e })

theorem exponentialLR_run_ignores_optimizer (o : ℕ) (s : ExponentialLR) (es : List ℕ) :
    ({ s with optimizer := o } : ExponentialLR).run es = s.run es := by
  induction es generalizing s with
  | nil => rfl
  | cons e es ih => exact congrArg₂ List.cons rfl (ih { s with last_epoch := e })

theorem cosineAnnealingLR_run_ignores_optimizer (o : ℕ) (s : CosineAnnealingLR)
    (es : List ℕ) :
    ({ s with optimizer := o } : CosineAnnealingLR).run es = s.run es := by
  induction es generalizing s with
  | nil => rfl
  | cons e es ih => exact congrArg₂ List.cons rfl (ih { s with last_epoch := e })

theorem lambdaLR_run_ignores_optimizer (o : ℕ) (s : LambdaLR) (es : List ℕ) :
    ({ s with optimizer := o } : LambdaLR).run es = s.run es := by
  induction es generalizing s with
  | nil => rfl
  | cons e es ih => exact congrArg₂ List.cons rfl (ih { s with last_epoch := e })

theorem cyclicLR_run_ignores_optimizer (o : ℕ) (s : CyclicLR) (es : List ℕ) :
    ({ s with optimizer := o } : CyclicLR).run es = s.run es := by
  induction es generalizing s with
  | nil => rfl
  | cons e es ih => exact congrArg₂ List.cons rfl (ih { s with last_epoch := e })

theorem warmRestarts_step_none_ignores_optimizer (o : ℕ)
    (s : CosineAnnealingWarmRestarts) :
    ({ s with optimizer := o } : CosineAnnealingWarmRestarts).step_none =
      { s.step_none with optimizer := o } := by
  cases s
  unfold CosineAnnealingWarmRestarts.step_none
  dsimp only
  split <;> rfl

theorem warmRestarts_run_ignores_optimizer (o : ℕ)
    (s : CosineAnnealingWarmRestarts) (n : ℕ) :
    ({ s with optimizer := o } : CosineAnnealingWarmRestarts).run n = s.run n := by
  induction n generalizing s with
  | zero => rfl
  | succ n ih =>
    rw [CosineAnnealingWarmRestarts.run, CosineAnnealingWarmRestarts.run,
      warmRestarts_step_none_ignores_optimizer]
    exact congrArg₂ List.cons rfl (ih s.step_none)

theorem plateau_step_ignores_optimizer (o : ℕ) (s : ReduceLROnPlateau)
    (gs : LrGroups) (m : ℚ) :
    ({ s with optimizer := o } : ReduceLROnPlateau).step gs m =
      ({ (s.step gs m).1 with optimizer := o }, (s.step gs m).2) := by
  cases s
  unfold ReduceLROnPlateau.step ReduceLROnPlateau.is_better
    ReduceLROnPlateau.reduce_lrs
  dsimp only
  split_ifs <;> rfl

theorem plateau_run_ignores_optimizer (o : ℕ) (s : ReduceLROnPlateau)
    (gs : LrGroups) (ms : List ℚ) :
    ({ s with optimizer := o } : ReduceLROnPlateau).run gs ms = s.run gs ms := by
  induction ms generalizing s gs with
  | nil => rfl
  | cons m ms ih =>
    rw [ReduceLROnPlateau.run, ReduceLROnPlateau.run,
      plateau_step_ignores_optimizer]
    exact congrArg₂ List.cons rfl (ih (s.step gs m).1 (s.step gs m).2)

theorem seed_all_loop_seeded (fresh rs : ℕ) (gs : List CudaGenerator) :
    seed_all_loop fresh gs rs true = gs.map fun g => g.manual_seed rs := by
  induction gs generalizing rs with
  | nil => rfl
  | cons g gs ih => rw [seed_all_loop, if_pos rfl, ih, List.map_cons]

/-- C10: after the deferred callback of `seed_all` runs, every CUDA device
holds the same seed: device 0 is seeded with a fresh random seed, its
`initial_seed` is read back, and every other device (in ascending index
order) is manually seeded with that same value. -/
theorem seed_all_same_seed_on_all_devices (fresh : ℕ) (gens : List CudaGenerator) :
    (seed_all fresh gens).map CudaGenerator.initial_seed =
      List.replicate gens.length fresh ∧
    seed_all fresh gens =
      (match gens with
       | [] => []
       | g :: gs => g.seedGen fresh ::
           gs.map fun h => h.manual_seed ((g.seedGen fresh).initial_seed)) := by
  cases gens with
  | nil => exact ⟨rfl, rfl⟩
  | cons g gs =>
    have hrun : seed_all fresh (g :: gs) =
        g.seedGen fresh :: gs.map fun h => h.manual_seed fresh := by
      rw [seed_all, seed_all_loop, if_neg (by simp)]
      dsimp only
      rw [seed_all_loop_seeded]
      rfl
    constructor
    · rw [hrun]
      simp [CudaGenerator.initial_seed, CudaGenerator.manual_seed,
        CudaGenerator.seedGen, List.map_map, Function.comp_def,
        List.replicate_succ]
    · rw [hrun]
      rfl

def stepLRC3 : StepLR :=
  ⟨0, 3, 0.1, [0.05], 0⟩

/-- C3: stepping the Step scheduler to epoch `e` sets every group's
learning rate to `base_lr * gamma ^ floor(e / step_size)`; with
`gamma = 0.1`, `step_size = 3`, `base_lr = 0.05` the rates over epochs
0-11 are 0.05 (epochs 0-2), 0.005 (3-5), 0.0005 (6-8) and 0.00005
(9-11). -/
theorem step_lr_rule_and_table :
    (∀ (s : StepLR) (e : ℕ),
      (s.step e).2 = s.base_lrs.map fun b => b * s.gamma ^ (e / s.step_size)) ∧
    (List.range 12).map (fun e => (stepLRC3.step e).2) =
      [[0.05], [0.05], [0.05], [0.005], [0.005], [0.005],
       [0.0005], [0.0005], [0.0005], [0.00005], [0.00005], [0.00005]] := by
  constructor
  · intro s e
    rfl
  · simp [List.range_succ, StepLR.step, StepLR.get_lr, stepLRC3]
    norm_num

def cyclicC6 : CyclicLR :=
  ⟨0, [1, 1], [5, 5], [1, 1], [5, 5], 4, 4, .triangular, 1, true, 0⟩

/-- C6: the cyclic scheduler in triangular mode with `base_lr = 1`,
`max_lr = 5`, `step_size_up = 4` and a mirrored down phase produces, for
step counters 0-10, the learning rates `[1,2,3,4,5,4,3,2,1,2,3]` in both
parameter groups, and with `cycle_momentum` enabled
(`base_momentum = 1`, `max_momentum = 5`) writes the inverse waveform
`[5,4,3,2,1,2,3,4,5,4,3]` to the momenta. -/
theorem cyclic_triangular_waveform :
    (List.range 11).map (fun i => (cyclicC6.step i).2.1) =
      [[1, 1], [2, 2], [3, 3], [4, 4], [5, 5], [4, 4], [3, 3], [2, 2],
       [1, 1], [2, 2], [3, 3]] ∧
    (List.range 11).map (fun i => (cyclicC6.step i).2.2) =
      [some [5, 5], some [4, 4], some [3, 3], some [2, 2], some [1, 1],
       some [2, 2], some [3, 3], some [4, 4], some [5, 5], some [4, 4],
       some [3, 3]] := by
  constructor
  · simp [List.range_succ, CyclicLR.step, CyclicLR.lrsAt, CyclicLR.scale_factor,
      CyclicLR.scaleAt, cyclicC6]
    norm_num
  · simp [List.range_succ, CyclicLR.step, CyclicLR.momentumsAt, CyclicLR.scale_factor,
      CyclicLR.scaleAt, cyclicC6]
    norm_num

/-- C5: whenever a plateau step begins with `cooldown_counter > 0`, the
step decrements the cooldown counter, resets `num_bad_epochs` to 0 and
performs no learning-rate reduction, for every reachable or unreachable
state alike; bad epochs therefore never accumulate during cooldown. -/
theorem plateau_cooldown_suspends_bad_epochs (s : ReduceLROnPlateau)
    (gs : LrGroups) (m : ℚ) (h : 0 < s.cooldown_counter) :
    (s.step gs m).1.cooldown_counter = s.cooldown_counter - 1 ∧
    (s.step gs m).1.num_bad_epochs = 0 ∧
    (s.step gs m).2 = gs := by
  unfold ReduceLROnPlateau.step
  rw [if_pos h]
  exact ⟨rfl, rfl, rfl⟩

def plateauC5w : ReduceLROnPlateau :=
  ⟨0, .min, .abs, 1/100, 5, 5, 1/10, [0], 1/10^8, some 5, 0, 2⟩

theorem plateau_cooldown_suspends_bad_epochs_witness :
    (plateauC5w.step [1/2] 6).1.cooldown_counter = plateauC5w.cooldown_counter - 1 ∧
    (plateauC5w.step [1/2] 6).1.num_bad_epochs = 0 ∧
    (plateauC5w.step [1/2] 6).2 = [1/2] :=
  plateau_cooldown_suspends_bad_epochs plateauC5w [1/2] 6 (by norm_num [plateauC5w])

/-- C8: constructing the SGD optimizer with an out-of-range hyperparameter
(momentum < 0, the test's example being -0.5) fails with a
`ConfigurationError` during the construction call itself, before the
parameter collection is ever examined (the result is the same even when no
parameters exist), and the value is never silently corrected; likewise a
scheduler construction given an unrecognized mode string fails
eagerly. -/
theorem construction_validates_eagerly :
    (∀ (params : Option (List ℚ)) (lr momentum weight_decay : ℚ),
      0 ≤ lr → momentum < 0 →
        sgdInit params lr momentum weight_decay =
          .error (.invalidMomentum momentum)) ∧
    (∀ (mode : String), mode ≠ "triangular" → mode ≠ "triangular2" →
      mode ≠ "exp_range" → cyclicParseMode mode = .error (.invalidMode mode)) := by
  constructor
  · intro params lr momentum weight_decay hlr hm
    unfold sgdInit
    rw [if_neg (not_lt.mpr hlr), if_pos hm]
  · intro mode h1 h2 h3
    unfold cyclicParseMode
    rw [if_neg h1, if_neg h2, if_neg h3]

theorem construction_validates_eagerly_witness :
    sgdInit none (1/100) (-(1/2)) 0 = .error (.invalidMomentum (-(1/2))) ∧
    cyclicParseMode "CATS" = .error (.invalidMode "CATS") :=
  ⟨construction_validates_eagerly.1 none (1/100) (-(1/2)) 0 (by norm_num)
      (by norm_num),
    construction_validates_eagerly.2 "CATS" (by decide) (by decide) (by decide)⟩

/-- C9: stepping the warm-restart scheduler with an explicit epoch
`e < 0` fails with a `ValueError` and produces no state change (validation
precedes mutation), every epoch `e ≥ 0` is accepted, and when
`T_mult = 1` any such epoch - fractional included - yields
`T_cur = e mod T_0` (that is, `e - T_0 * floor(e / T_0)`). -/
theorem warm_restart_negative_epoch_rejected :
    (∀ (s : CosineAnnealingWarmRestarts) (e : ℚ), e < 0 →
      s.step_epoch e = .error (.negativeEpoch e)) ∧
    (∀ (s : CosineAnnealingWarmRestarts) (e : ℚ), 0 ≤ e →
      s.step_epoch e = .ok (s.update_epoch e)) ∧
    (∀ (s : CosineAnnealingWarmRestarts) (e : ℚ), 0 ≤ e → s.T_mult = 1 →
      0 < s.T_0 →
      (s.update_epoch e).T_cur = e - (s.T_0 : ℚ) * (⌊e / (s.T_0 : ℚ)⌋ : ℤ)) := by
  refine ⟨?_, ?_, ?_⟩
  · intro s e he
    unfold CosineAnnealingWarmRestarts.step_epoch
    rw [if_pos he]
  · intro s e he
    unfold CosineAnnealingWarmRestarts.step_epoch
    rw [if_neg (not_lt.mpr he)]
  · intro s e he hTm hT0
    have hT0Q : (0 : ℚ) < (s.T_0 : ℚ) := by exact_mod_cast hT0
    unfold CosineAnnealingWarmRestarts.update_epoch
    dsimp only
    unfold warmRestartPair
    by_cases h : e < (s.T_0 : ℚ)
    · rw [if_pos h]
      have h0 : ⌊e / (s.T_0 : ℚ)⌋ = 0 :=
        Int.floor_eq_zero_iff.mpr
          (Set.mem_Ico.mpr ⟨div_nonneg he hT0Q.le, (div_lt_one hT0Q).mpr h⟩)
      rw [h0]
      push_cast
      ring
    · rw [if_neg h, if_pos hTm]

def warmC9w : CosineAnnealingWarmRestarts :=
  ⟨0, 10, 1, 0, [1/20], 0, 10, -1⟩

theorem warm_restart_negative_epoch_rejected_witness :
    warmC9w.step_epoch (-1) = .error (.negativeEpoch (-1)) ∧
    warmC9w.step_epoch (3/2) = .ok (warmC9w.update_epoch (3/2)) ∧
    (warmC9w.update_epoch (3/2)).T_cur =
      3/2 - (warmC9w.T_0 : ℚ) * (⌊(3/2 : ℚ) / (warmC9w.T_0 : ℚ)⌋ : ℤ) :=
  ⟨warm_restart_negative_epoch_rejected.1 warmC9w (-1) (by norm_num),
    warm_restart_negative_epoch_rejected.2.1 warmC9w (3/2) (by norm_num),
    warm_restart_negative_epoch_rejected.2.2 warmC9w (3/2) (by norm_num) rfl
      (by norm_num [warmC9w])⟩

/-- C7: for every scheduler that accepts an explicit epoch, and every
fixed state, stepping twice with the same epoch value yields exactly the
state and group writes of stepping once: the write is idempotent for a
fixed (state, epoch) pair.  For the warm-restart scheduler the second
step is sequenced through `Except.bind`, so an erroring step stays an
error and an accepted one repeats its own outcome. -/
theorem scheduler_step_idempotent :
    (∀ (s : StepLR) (e : ℕ), (s.step e).1.step e = s.step e) ∧
    (∀ (s : MultiStepLR) (e : ℕ), (s.step e).1.step e = s.step e) ∧
    (∀ (s : ExponentialLR) (e : ℕ), (s.step e).1.step e = s.step e) ∧
    (∀ (s : CosineAnnealingLR) (e : ℕ), (s.step e).1.step e = s.step e) ∧
    (∀ (s : LambdaLR) (e : ℕ), (s.step e).1.step e = s.step e) ∧
    (∀ (s : CyclicLR) (e : ℕ), (s.step e).1.step e = s.step e) ∧
    (∀ (s : CosineAnnealingWarmRestarts) (e : ℚ),
      (s.step_epoch e >>= fun s' => s'.step_epoch e) = s.step_epoch e) := by
  refine ⟨fun s e => rfl, fun s e => rfl, fun s e => rfl, fun s e => rfl,
    fun s e => rfl, fun s e => rfl, fun s e => ?_⟩
  unfold CosineAnnealingWarmRestarts.step_epoch
  by_cases h : e < 0
  · rw [if_pos h]
    rfl
  · rw [if_neg h]
    show CosineAnnealingWarmRestarts.step_epoch _ e = _
    unfold CosineAnnealingWarmRestarts.step_epoch
    rw [if_neg h]
    rfl

/-- C1: for the warm-restart scheduler with `T_0 = 10`,
`eta_min = 1e-10`, `base_lr = 0.05`, for every `T_mult` in {1, 2, 4} and
every integer epoch `0 ≤ e < 100`, the learning rate of the closed-form
`T_cur / T_i` computation at explicit epoch `e` equals the learning rate
of the iterative simulation that increments `T_cur` each step and
restarts (resetting `T_cur` and multiplying `T_i` by `T_mult`) when
`T_cur` reaches `T_i`. -/
theorem warm_restarts_closed_form_matches_iterative (T_mult e : ℕ)
    (hT : T_mult = 1 ∨ T_mult = 2 ∨ T_mult = 4) (he : e < 100) :
    warmLR (1 / 10 ^ 10) (1 / 20) (warmRestartPair 10 T_mult (e : ℚ)) =
      warmLR (1 / 10 ^ 10) (1 / 20)
        (((warmIterPair T_mult e).1 : ℚ), ((warmIterPair T_mult e).2 : ℚ)) := by
  have hTm : 1 ≤ T_mult := by rcases hT with h | h | h <;> omega
  have hbridge := warmRestartPair_natCast 10 T_mult e (by norm_num) hTm
  have hpairs : warmRestartPairNat 10 T_mult e = warmIterPair T_mult e := by
    rcases hT with h | h | h <;> subst h
    · exact (by decide : ∀ x < 100, warmRestartPairNat 10 1 x = warmIterPair 1 x) e he
    · exact (by decide : ∀ x < 100, warmRestartPairNat 10 2 x = warmIterPair 2 x) e he
    · exact (by decide : ∀ x < 100, warmRestartPairNat 10 4 x = warmIterPair 4 x) e he
  rw [hbridge, hpairs]

theorem warm_restarts_closed_form_matches_iterative_witness :
    warmLR (1 / 10 ^ 10) (1 / 20) (warmRestartPair 10 2 ((37 : ℕ) : ℚ)) =
      warmLR (1 / 10 ^ 10) (1 / 20)
        (((warmIterPair 2 37).1 : ℚ), ((warmIterPair 2 37).2 : ℚ)) :=
  warm_restarts_closed_form_matches_iterative 2 37 (Or.inr (Or.inl rfl))
    (by norm_num)

/-- The plateau configuration of `test_reduce_lr_on_plateau1`
(src/test/test_optim.py lines 735-743): mode=min, threshold_mode=abs,
threshold=0.01, patience=5, cooldown=5, default factor 0.1, min_lr 0 and
epsilon 1e-8, over two groups at learning rate 0.5. -/
def plateauC4 : ReduceLROnPlateau :=
  ⟨0, .min, .abs, 1/100, 5, 5, 1/10, [0, 0], 1/10^8, none, 0, 0⟩

/-- The metric stream of `test_reduce_lr_on_plateau1`:
`10 - 0.0167 * i`. -/
def metricsC4 (i : ℕ) : ℚ :=
  10 - 167/10000 * i

/-- The state and groups after `i` plateau steps on the metric stream. -/
def plateauRunC4 : ℕ → ReduceLROnPlateau × LrGroups
  | 0 => (plateauC4, [1/2, 1/2])
  | i + 1 => (plateauRunC4 i).1.step (plateauRunC4 i).2 (metricsC4 i)

theorem plateauRunC4_succ (i : ℕ) :
    plateauRunC4 (i + 1) =
      (⟨0, .min, .abs, 1/100, 5, 5, 1/10, [0, 0], 1/10^8, some (metricsC4 i),
        0, 0⟩, [1/2, 1/2]) := by
  induction i with
  | zero =>
    show plateauC4.step [1/2, 1/2] (metricsC4 0) = _
    unfold ReduceLROnPlateau.step plateauC4
    dsimp only
    rw [if_neg (by decide), if_pos (by rfl)]
  | succ j ih =>
    show (plateauRunC4 (j + 1)).1.step (plateauRunC4 (j + 1)).2 (metricsC4 (j + 1)) = _
    rw [ih]
    have hbetter :
        (⟨0, .min, .abs, 1/100, 5, 5, 1/10, [0, 0], 1/10^8, some (metricsC4 j),
          0, 0⟩ : ReduceLROnPlateau).is_better (metricsC4 (j + 1)) = true := by
      unfold ReduceLROnPlateau.is_better plateauIsBetter
      dsimp only
      rw [decide_eq_true_iff]
      unfold metricsC4
      push_cast
      linarith
    unfold ReduceLROnPlateau.step
    dsimp only
    rw [if_neg (by decide), if_pos hbetter]

/-- C4: the plateau scheduler with mode=min, threshold_mode=abs,
threshold=0.01, patience=5, cooldown=5, fed the improving metric stream
`10 - 0.0167*i` (each step beats the previous best by more than the
threshold), leaves the learning rate of every group unchanged across all
20 steps: no reduction is ever triggered. -/
theorem plateau_improving_metrics_keep_lr (i : ℕ) (hi : i ≤ 20) :
    (plateauRunC4 i).2 = [1/2, 1/2] := by
  cases i with
  | zero => rfl
  | succ j => rw [plateauRunC4_succ j]

theorem plateau_improving_metrics_keep_lr_witness :
    (plateauRunC4 20).2 = [1/2, 1/2] :=
  plateau_improving_metrics_keep_lr 20 (by norm_num)

theorem lambda_zip_none (xs : List (ℕ → ℚ)) :
    ((xs.zip (xs.map fun _f => (none : Option (ℕ → ℚ)))).map fun p =>
      p.2.getD p.1) = xs := by
  induction xs with
  | nil => rfl
  | cons x xs ih =>
    simp only [List.map_cons, List.zip_cons_cons, Option.getD_none]
    rw [ih]

/-- C2 (amended): for every scheduler kind whose state is fully
serializable - Step, MultiStep, Exponential, CosineAnnealing, Cyclic,
warm-restart and plateau - loading `a`'s state dict into a freshly
constructed `b` of possibly different hyperparameters makes every field
of `b` except the optimizer reference equal to `a`'s, and every
subsequent sequence of equal step calls then produces learning rates
identical to `a`'s.  For the Lambda scheduler the state dict records the
per-group function objects as null placeholders, so the same holds only
when `b` carries the same functions as `a`. -/
theorem scheduler_state_dict_round_trip :
    (∀ (a b : StepLR),
      b.load_state_dict a.state_dict = { a with optimizer := b.optimizer } ∧
      ∀ es : List ℕ, (b.load_state_dict a.state_dict).run es = a.run es) ∧
    (∀ (a b : MultiStepLR),
      b.load_state_dict a.state_dict = { a with optimizer := b.optimizer } ∧
      ∀ es : List ℕ, (b.load_state_dict a.state_dict).run es = a.run es) ∧
    (∀ (a b : ExponentialLR),
      b.load_state_dict a.state_dict = { a with optimizer := b.optimizer } ∧
      ∀ es : List ℕ, (b.load_state_dict a.state_dict).run es = a.run es) ∧
    (∀ (a b : CosineAnnealingLR),
      b.load_state_dict a.state_dict = { a with optimizer := b.optimizer } ∧
      ∀ es : List ℕ, (b.load_state_dict a.state_dict).run es = a.run es) ∧
    (∀ (a b : CyclicLR),
      b.load_state_dict a.state_dict = { a with optimizer := b.optimizer } ∧
      ∀ es : List ℕ, (b.load_state_dict a.state_dict).run es = a.run es) ∧
    (∀ (a b : CosineAnnealingWarmRestarts),
      b.load_state_dict a.state_dict = { a with optimizer := b.optimizer } ∧
      ∀ n : ℕ, (b.load_state_dict a.state_dict).run n = a.run n) ∧
    (∀ (a b : ReduceLROnPlateau),
      b.load_state_dict a.state_dict = { a with optimizer := b.optimizer } ∧
      ∀ (gs : LrGroups) (ms : List ℚ),
        (b.load_state_dict a.state_dict).run gs ms = a.run gs ms) ∧
    (∀ (a b : LambdaLR), b.lr_lambdas = a.lr_lambdas →
      b.load_state_dict a.state_dict = { a with optimizer := b.optimizer } ∧
      ∀ es : List ℕ, (b.load_state_dict a.state_dict).run es = a.run es) := by
  refine ⟨?_, ?_, ?_, ?_, ?_, ?_, ?_, ?_⟩
  · intro a b
    have h : b.load_state_dict a.state_dict = { a with optimizer := b.optimizer } := by
      cases a; cases b; rfl
    exact ⟨h, fun es => by
      rw [h]; exact stepLR_run_ignores_optimizer b.optimizer a es⟩
  · intro a b
    have h : b.load_state_dict a.state_dict = { a with optimizer := b.optimizer } := by
      cases a; cases b; rfl
    exact ⟨h, fun es => by
      rw [h]; exact MultistepLR_run_ignores_optimizer b.optimizer a es⟩
  · intro a b
    have h : b.load_state_dict a.state_dict = { a with optimizer := b.optimizer } := by
      cases a; cases b; rfl
    exact ⟨h, fun es => by
      rw [h]; exact exponentialLR_run_ignores_optimizer b.optimizer a es⟩
  · intro a b
    have h : b.load_state_dict a.state_dict = { a with optimizer := b.optimizer } := by
      cases a; cases b; rfl
    exact ⟨h, fun es => by
      rw [h]; exact cosineAnnealingLR_run_ignores_optimizer b.optimizer a es⟩
  · intro a b
    have h : b.load_state_dict a.state_dict = { a with optimizer := b.optimizer } := by
      cases a; cases b; rfl
    exact ⟨h, fun es => by
      rw [h]; exact cyclicLR_run_ignores_optimizer b.optimizer a es⟩
  · intro a b
    have h : b.load_state_dict a.state_dict = { a with optimizer := b.optimizer } := by
      cases a; cases b; rfl
    exact ⟨h, fun n => by
      rw [h]; exact warmRestarts_run_ignores_optimizer b.optimizer a n⟩
  · intro a b
    have h : b.load_state_dict a.state_dict = { a with optimizer := b.optimizer } := by
      cases a; cases b; rfl
    exact ⟨h, fun gs ms => by
      rw [h]; exact plateau_run_ignores_optimizer b.optimizer a gs ms⟩
  · intro a b hlam
    have h : b.load_state_dict a.state_dict = { a with optimizer := b.optimizer } := by
      cases a; cases b
      dsimp only at hlam
      subst hlam
      unfold LambdaLR.load_state_dict LambdaLR.state_dict
      dsimp only
      rw [lambda_zip_none]
    exact ⟨h, fun es => by
      rw [h]; exact lambdaLR_run_ignores_optimizer b.optimizer a es⟩

def lambdaCexA : LambdaLR :=
  ⟨0, [fun _e => 1], [1], 0⟩

def lambdaCexB : LambdaLR :=
  ⟨0, [fun _e => 2], [1], 0⟩

/-- C2 as literally stated fails on the Lambda scheduler: its state dict
records the function objects as null placeholders, so loading `a`'s state
dict into a `b` built with a different multiplier function leaves `b`'s
own function in place, and the subsequent learning rates differ (here 2
versus 1 at epoch 1). -/
theorem scheduler_state_dict_round_trip_cex :
    ((lambdaCexB.load_state_dict lambdaCexA.state_dict).step 1).2 ≠
      (lambdaCexA.step 1).2 := by
  intro hcontra
  simp [lambdaCexA, lambdaCexB, LambdaLR.load_state_dict, LambdaLR.state_dict,
    LambdaLR.step, LambdaLR.get_lr] at hcontra

def lambdaW_a : LambdaLR :=
  ⟨0, [fun e => (e : ℚ)], [1/2], 0⟩

def lambdaW_b : LambdaLR :=
  ⟨7, [fun e => (e : ℚ)], [1/3], 5⟩

theorem scheduler_state_dict_round_trip_witness :
    lambdaW_b.load_state_dict lambdaW_a.state_dict =
      { lambdaW_a with optimizer := lambdaW_b.optimizer } ∧
    (lambdaW_b.load_state_dict lambdaW_a.state_dict).run [0, 1, 2] =
      lambdaW_a.run [0, 1, 2] := by
  have h := scheduler_state_dict_round_trip.2.2.2.2.2.2.2 lambdaW_a lambdaW_b rfl
  exact ⟨h.1, h.2 [0, 1, 2]⟩
